import Mathlib

/-!
Verification of the `reactivity` crate's propagation engine.

The shared-across-threads variant (`src/src/sync.rs`, `SyncSignal<T>`) is
embedded as a store-passing state machine: signals live in a store indexed
by `Nat` identifiers (an `Arc`-cloned signal or a boxed trait object in the
receiver registry is an alias of the same identifier), mutation of a
`Mutex`-guarded field becomes functional update of the store, and the
side-effect callback (`effect`) is made observable as an append-only log of
`(signal id, newly computed value)` events.  A processor closure, which in
Rust reads its dependencies through their `get()` methods, becomes a
function from the value environment (id ↦ current value) to the new value.

Fallible operations return `Option`: `None` models a Rust panic.  The two
panic sources in `sync.rs` are the `unwrap()` of an absent generator in
`react` (line 214) and the underflow of the `usize` dirty counter in
`decrease_dirty` (line 249, `*self.dirty.lock() -= 1` on a counter that is
already 0 — an arithmetic overflow, i.e. a program error: a panic under
debug assertions, a wrap to `usize::MAX` otherwise; either way release is
not applied exactly once).  Recursion through the dependency graph is
fuel-indexed; `None` on fuel exhaustion models divergence (the crate
assumes acyclic graphs, so every run below uses ample fuel).
-/

namespace Reactivity

/-- State of one `SyncSignal<T>` cell (src/src/sync.rs:83-89): current
value (`inner`), optional generator (the closure built by `driven`, which
runs the processor, fires the effect, and returns the new value; the
effect firing is recorded on the store's log), receiver registry (ids of
dependent signals, in registration order), suspension flag, and dirty
counter. -/
structure SigState (V : Type) where
  value : V
  gen : Option ((Nat → V) → V)
  receivers : List Nat
  suspended : Bool
  dirty : Nat

/-- The heap of signal cells (id = index) plus the observable log of
effect invocations `(signal id, newly computed value)`. -/
structure Store (V : Type) where
  sigs : List (SigState V)
  log : List (Nat × V)

variable {V : Type}

/-- Dereference a signal id. -/
def getSig (st : Store V) (i : Nat) : Option (SigState V) :=
  st.sigs.get? i

/-- Replace the cell at id `i`. -/
def setSig (st : Store V) (i : Nat) (s : SigState V) : Store V :=
  { st with sigs := st.sigs.set i s }

/-- The value environment a processor closure reads: each captured
dependency is read through its own `get()`. -/
def envOf [Inhabited V] (st : Store V) : Nat → V :=
  fun i => ((st.sigs.get? i).map SigState.value).getD default

/-- The dirty counter of signal `i` (`Dirty::dirty`, src/src/sync.rs:240-242). -/
def dirtyOf (st : Store V) (i : Nat) : Nat :=
  ((st.sigs.get? i).map SigState.dirty).getD 0

/-- `Dirty::increase_dirty` (src/src/sync.rs:244-246): `*self.dirty.lock() += 1`. -/
def increase_dirty (st : Store V) (i : Nat) : Option (Store V) :=
  (getSig st i).map fun s => setSig st i { s with dirty := s.dirty + 1 }

/-- `Dirty::decrease_dirty` (src/src/sync.rs:248-250): `*self.dirty.lock() -= 1`.
Underflow of the `usize` counter (decrement at 0) is an arithmetic
overflow, modelled as `none`. -/
def decrease_dirty (st : Store V) (i : Nat) : Option (Store V) := do
  let s ← getSig st i
  if s.dirty = 0 then none
  else some (setSig st i { s with dirty := s.dirty - 1 })

mutual

/-- `Reactive::promise` (src/src/sync.rs:26-35): increment the receiver's
dirty counter, construct one token bound to it, recursively collect the
downstream tokens via `receiver_promise`, and return this token first. -/
def promise [Inhabited V] : Nat → Store V → Nat → Option (Store V × List Nat)
  | 0, _, _ => none
  | fuel+1, st, r => do
    let st1 ← increase_dirty st r
    let (st2, ts) ← receiver_promise fuel st1 r
    some (st2, r :: ts)
termination_by structural fuel => fuel

/-- `Dirty::receiver_promise` for `SyncSignal` (src/src/sync.rs:252-258):
flat-map `promise` over the receiver registry, in registration order. -/
def receiver_promise [Inhabited V] : Nat → Store V → Nat → Option (Store V × List Nat)
  | 0, _, _ => none
  | fuel+1, st, r => do
    let s ← getSig st r
    promiseList fuel st s.receivers

/-- Sequential state-threading of the iterator `flat_map(|receiver| receiver.promise())`. -/
def promiseList [Inhabited V] : Nat → Store V → List Nat → Option (Store V × List Nat)
  | 0, _, _ => none
  | _fuel+1, st, [] => some (st, [])
  | fuel+1, st, r :: rs => do
    let (st1, ts1) ← promise fuel st r
    let (st2, ts2) ← promiseList fuel st1 rs
    some (st2, ts1 ++ ts2)
termination_by structural fuel => fuel

/-- `SyncSignal::send` (src/src/sync.rs:159-169): overwrite the stored
value; if suspended return no tokens, otherwise flat-map `promise` over
the receivers and return all tokens. -/
def send [Inhabited V] : Nat → Store V → Nat → V → Option (Store V × List Nat)
  | 0, _, _, _ => none
  | fuel+1, st, s, v => do
    let sg ← getSig st s
    let st0 := setSig st s { sg with value := v }
    if sg.suspended then some (st0, [])
    else promiseList fuel st0 sg.receivers

/-- `SyncSignal::react` (src/src/sync.rs:213-217): unwrap the generator
(`none` models the panic when it is absent), run it — the generator built
by `driven` computes the processor over the live dependency values, then
fires the effect, recorded on the log — and `send` the new value to
itself, returning that send's tokens. -/
def react [Inhabited V] : Nat → Store V → Nat → Option (Store V × List Nat)
  | 0, _, _ => none
  | fuel+1, st, i => do
    let s ← getSig st i
    let f ← s.gen
    let v := f (envOf st)
    let st1 : Store V := { st with log := st.log ++ [(i, v)] }
    send fuel st1 i v

/-- `UpdatePromise::resolve` (src/src/sync.rs:55-60): decrement the bound
receiver's dirty counter; if it is now 0, call `react()` on it.  The token
vector returned by `react` is discarded at the end of the statement, which
drops each token front-to-back, resolving them recursively. -/
def resolve [Inhabited V] : Nat → Store V → Nat → Option (Store V)
  | 0, _, _ => none
  | fuel+1, st, r => do
    let st1 ← decrease_dirty st r
    if dirtyOf st1 r = 0 then do
      let (st2, ts) ← react fuel st1 r
      resolveList fuel st2 ts
    else some st1
termination_by structural fuel => fuel

/-- Dropping a `Vec<UpdatePromise>` releases each token in order
(src/src/sync.rs:63-67, `Drop` calls `resolve`). -/
def resolveList [Inhabited V] : Nat → Store V → List Nat → Option (Store V)
  | 0, _, _ => none
  | _fuel+1, st, [] => some st
  | fuel+1, st, t :: ts => do
    let st1 ← resolve fuel st t
    resolveList fuel st1 ts
termination_by structural fuel => fuel

end

/-- `SyncSignal::new` (src/src/sync.rs:93-101): fresh independent cell, no
generator, empty registry, not suspended, dirty 0.  Returns the extended
store and the new signal's id. -/
def SyncSignal.new (st : Store V) (v : V) : Store V × Nat :=
  ({ st with sigs := st.sigs ++ [⟨v, none, [], false, 0⟩] }, st.sigs.length)

/-- `SyncSignal::driven` (src/src/sync.rs:122-139): evaluate the processor
once to seed the value (the effect is not invoked, so the log is
untouched), then install the generator wrapping processor and effect. -/
def SyncSignal.driven [Inhabited V] (st : Store V) (proc : (Nat → V) → V) :
    Store V × Nat :=
  ({ st with sigs := st.sigs ++ [⟨proc (envOf st), some proc, [], false, 0⟩] },
   st.sigs.length)

/-- `SyncSignal::get` (src/src/sync.rs:142-147): clone the current value;
triggers nothing. -/
def SyncSignal.get [Inhabited V] (st : Store V) (i : Nat) : V :=
  envOf st i

/-- `SyncSignal::add_receiver` (src/src/sync.rs:172-177): push a clone of
the dependent (an alias, hence its id) onto the registry. -/
def add_receiver (st : Store V) (src dep : Nat) : Store V :=
  match getSig st src with
  | some s => setSig st src { s with receivers := s.receivers ++ [dep] }
  | none => st

/-- `SyncSignal::suspend` (src/src/sync.rs:182-184). -/
def suspend (st : Store V) (i : Nat) : Store V :=
  match getSig st i with
  | some s => setSig st i { s with suspended := true }
  | none => st

/-- `SyncSignal::resume` (src/src/sync.rs:187-189). -/
def resume (st : Store V) (i : Nat) : Store V :=
  match getSig st i with
  | some s => setSig st i { s with suspended := false }
  | none => st

/-- The empty store. -/
def emptyStore (V : Type) : Store V := ⟨[], []⟩

namespace Lib

/-- State of one single-owner `Signal<T>` cell (src/src/lib.rs:40-52): the
struct's fields are exactly `inner` (value), `effect` (optional callback —
its presence is the `effect` flag here, its firing is observable on the
log), `processor` (optional pure computation), `receivers`, and `dirty`.
There is no suspension flag in this struct, and `SealedSignalTrait::init`
(src/src/lib.rs:96-110) takes no suspension argument. -/
structure SigState (V : Type) where
  value : V
  effect : Bool
  processor : Option ((Nat → V) → V)
  receivers : List Nat
  dirty : Nat

/-- Heap of single-owner cells plus the effect-invocation log. -/
structure Store (V : Type) where
  sigs : List (SigState V)
  log : List (Nat × V)

variable {V : Type}

/-- Dereference a signal id. -/
def getSig (st : Store V) (i : Nat) : Option (SigState V) :=
  st.sigs.get? i

/-- Replace the cell at id `i`. -/
def setSig (st : Store V) (i : Nat) (s : SigState V) : Store V :=
  { st with sigs := st.sigs.set i s }

/-- The value environment a processor closure reads. -/
def envOf [Inhabited V] (st : Store V) : Nat → V :=
  fun i => ((st.sigs.get? i).map SigState.value).getD default

/-- The dirty counter of signal `i`. -/
def dirtyOf (st : Store V) (i : Nat) : Nat :=
  ((st.sigs.get? i).map SigState.dirty).getD 0

/-- Modelled from the spec: api.rs (the `SignalTrait` implementation the
single-owner `Signal` uses) is not under src/; §4.2 `increase_dirty` is a
counter increment. -/
def increase_dirty (st : Store V) (i : Nat) : Option (Store V) :=
  (getSig st i).map fun s => setSig st i { s with dirty := s.dirty + 1 }

/-- Modelled from the spec: api.rs is not under src/; §4.2 `decrease_dirty`
is a counter decrement of the non-negative counter (decrement at 0 is the
same arithmetic overflow as in the shared variant, modelled as `none`). -/
def decrease_dirty (st : Store V) (i : Nat) : Option (Store V) := do
  let s ← getSig st i
  if s.dirty = 0 then none
  else some (setSig st i { s with dirty := s.dirty - 1 })

mutual

/-- Modelled from the spec: api.rs is not under src/; §4.2 `promise()`
increments the receiver's dirty counter by 1, constructs one token bound
to the receiver, recursively calls `receiver_promise()`, and returns this
token first. -/
def promise [Inhabited V] : Nat → Store V → Nat → Option (Store V × List Nat)
  | 0, _, _ => none
  | fuel+1, st, r => do
    let st1 ← increase_dirty st r
    let (st2, ts) ← receiver_promise fuel st1 r
    some (st2, r :: ts)
termination_by structural fuel => fuel

/-- Modelled from the spec: api.rs is not under src/; §4.2
`receiver_promise()` requests a token from every registered receiver and
flattens the results. -/
def receiver_promise [Inhabited V] : Nat → Store V → Nat → Option (Store V × List Nat)
  | 0, _, _ => none
  | fuel+1, st, r => do
    let s ← getSig st r
    promiseList fuel st s.receivers

/-- Sequential state-threading of the per-receiver `promise` requests. -/
def promiseList [Inhabited V] : Nat → Store V → List Nat → Option (Store V × List Nat)
  | 0, _, _ => none
  | _fuel+1, st, [] => some (st, [])
  | fuel+1, st, r :: rs => do
    let (st1, ts1) ← promise fuel st r
    let (st2, ts2) ← promiseList fuel st1 rs
    some (st2, ts1 ++ ts2)
termination_by structural fuel => fuel

/-- Modelled from the spec: api.rs is not under src/; §4.1 `send`
unconditionally overwrites the stored value and requests a token from
every currently registered receiver.  The `Signal` struct
(src/src/lib.rs:40-52) has no suspension flag, so the suspended branch of
§4.1 has no state to consult and cannot exist in this variant. -/
def send [Inhabited V] : Nat → Store V → Nat → V → Option (Store V × List Nat)
  | 0, _, _, _ => none
  | fuel+1, st, s, v => do
    let sg ← getSig st s
    let st0 := setSig st s { sg with value := v }
    promiseList fuel st0 sg.receivers

/-- Modelled from the spec: api.rs is not under src/; §4.2 `react()` is
valid only on a signal with a processor (`none` models the panic
otherwise), invokes the processor against live dependency values, invokes
the effect callback with the new value (recorded on the log), then sends
the new value to itself. -/
def react [Inhabited V] : Nat → Store V → Nat → Option (Store V × List Nat)
  | 0, _, _ => none
  | fuel+1, st, i => do
    let s ← getSig st i
    let f ← s.processor
    let v := f (envOf st)
    let st1 : Store V := { st with log := st.log ++ [(i, v)] }
    send fuel st1 i v

/-- Modelled from the spec: api.rs is not under src/; §4.2 resolution
protocol — decrement the bound receiver's dirty counter, and if it is now
exactly 0, invoke `react()` on it; the tokens of the inner send are
released recursively. -/
def resolve [Inhabited V] : Nat → Store V → Nat → Option (Store V)
  | 0, _, _ => none
  | fuel+1, st, r => do
    let st1 ← decrease_dirty st r
    if dirtyOf st1 r = 0 then do
      let (st2, ts) ← react fuel st1 r
      resolveList fuel st2 ts
    else some st1
termination_by structural fuel => fuel

/-- Releasing a batch of tokens in order (scope exit of a token list). -/
def resolveList [Inhabited V] : Nat → Store V → List Nat → Option (Store V)
  | 0, _, _ => none
  | _fuel+1, st, [] => some st
  | fuel+1, st, t :: ts => do
    let st1 ← resolve fuel st t
    resolveList fuel st1 ts
termination_by structural fuel => fuel

end

/-- Modelled from the spec: §4.1 `new(value)` — independent signal, no
processor, no effect, dirty = 0 (the struct literal matches
src/src/lib.rs:40-52, which has no suspension field to initialise). -/
def Signal.new (st : Store V) (v : V) : Store V × Nat :=
  ({ st with sigs := st.sigs ++ [⟨v, false, none, [], 0⟩] }, st.sigs.length)

/-- `Signal::driven` (src/src/lib.rs:74-85): seeds the value with one
evaluation of the processor and stores processor and effect; the effect is
not invoked at construction. -/
def Signal.driven [Inhabited V] (st : Store V) (proc : (Nat → V) → V) :
    Store V × Nat :=
  ({ st with sigs := st.sigs ++ [⟨proc (envOf st), true, some proc, [], 0⟩] },
   st.sigs.length)

/-- Modelled from the spec: §4.1 `get()` clones the current value and
triggers nothing. -/
def Signal.get [Inhabited V] (st : Store V) (i : Nat) : V :=
  envOf st i

/-- Modelled from the spec: §4.1 `add_receiver` appends the dependent to
the registry. -/
def add_receiver (st : Store V) (src dep : Nat) : Store V :=
  match getSig st src with
  | some s => setSig st src { s with receivers := s.receivers ++ [dep] }
  | none => st

/-- Modelled from the spec: §4.1 describes `suspend()` as setting a gate
flag, but the single-owner `Signal` struct (src/src/lib.rs:40-52) has no
such field and `SealedSignalTrait` exposes no accessor for one, so there
is no state for `suspend` to record; the only state-preserving reading is
a no-op. -/
def suspend (st : Store V) (_i : Nat) : Store V := st

/-- Modelled from the spec: counterpart of `suspend` under the same
absence of a gate flag in the struct; a no-op. -/
def resume (st : Store V) (_i : Nat) : Store V := st

/-- The empty single-owner store. -/
def emptyStore (V : Type) : Store V := ⟨[], []⟩

end Lib

/-- Maps a single-owner cell to a shared-variant cell: the generator of
the shared variant is the processor-plus-effect composite, and there is no
suspension flag to carry over, so the target flag is `false`. -/
def toSyncSig {V : Type} (s : Lib.SigState V) : SigState V :=
  ⟨s.value, s.processor, s.receivers, false, s.dirty⟩

/-- Maps a single-owner store to a shared-variant store. -/
def toSync {V : Type} (st : Lib.Store V) : Store V :=
  ⟨st.sigs.map toSyncSig, st.log⟩

/-! Concrete scenario stores used by the theorems below. -/

/-- One independent signal `x = new 1` (id 0) with one driven receiver
`y = driven (fun a => a * 2)` (id 1), registered via `add_receiver`. -/
def pairStore : Store Int :=
  let p1 := SyncSignal.new (emptyStore Int) 1
  let p2 := SyncSignal.driven p1.1 (fun env => env 0 * 2)
  add_receiver p2.1 0 1

/-- The diamond of the spec: independent `A` (id 0, initial value 1),
derived `B = f(A)` (id 1), `C = g(A)` (id 2), `D = h(B, C)` (id 3), with
`A` notifying `B` and `C` and both notifying `D`. -/
def diamondStore (f g : Int → Int) (h : Int → Int → Int) : Store Int :=
  let p1 := SyncSignal.new (emptyStore Int) 1
  let p2 := SyncSignal.driven p1.1 (fun env => f (env 0))
  let p3 := SyncSignal.driven p2.1 (fun env => g (env 0))
  let p4 := SyncSignal.driven p3.1 (fun env => h (env 1) (env 2))
  add_receiver (add_receiver (add_receiver (add_receiver p4.1 0 1) 0 2) 1 3) 2 3

/-- One `A.send(x)` on the diamond followed by releasing all the returned
tokens as a batch, in order (scope exit of the returned vector). -/
def diamondRun (f g : Int → Int) (h : Int → Int → Int) (x : Int) : Option (Store Int) :=
  (send 20 (diamondStore f g h) 0 x) >>= fun p => resolveList 20 p.1 p.2

/-- A two-level chain: independent `x` (id 0), derived `y = f(x)` (id 1),
derived `z = g(y)` (id 2); `x` notifies `y`, `y` notifies `z`. -/
def chainStore (f g : Int → Int) : Store Int :=
  let p1 := SyncSignal.new (emptyStore Int) 1
  let p2 := SyncSignal.driven p1.1 (fun env => f (env 0))
  let p3 := SyncSignal.driven p2.1 (fun env => g (env 1))
  add_receiver (add_receiver p3.1 0 1) 1 2

/-- An independent signal (id 0) whose registered receiver (id 1) was
created by `new` and therefore owns no generator. -/
def noGenStore : Store Int :=
  let p1 := SyncSignal.new (emptyStore Int) 1
  let p2 := SyncSignal.new p1.1 2
  add_receiver p2.1 0 1

/-- The single-owner counterpart of `pairStore`, built with the
single-owner constructors. -/
def libPairStore : Lib.Store Int :=
  let p1 := Lib.Signal.new (Lib.emptyStore Int) 1
  let p2 := Lib.Signal.driven p1.1 (fun env => env 0 * 2)
  Lib.add_receiver p2.1 0 1

/-- The state of `pairStore` right after `send 0 5` returned its token
batch `[1]`: the source holds 5 and the receiver's dirty counter is 1. -/
def armedPair : Store Int :=
  ⟨[⟨5, none, [1], false, 0⟩, ⟨2, some (fun env => env 0 * 2), [], false, 1⟩], []⟩

/-- The state of `pairStore` with the receiver's counter armed but the
source not yet overwritten (the direct result of one `promise` call on the
receiver). -/
def promisedPair : Store Int :=
  ⟨[⟨1, none, [1], false, 0⟩, ⟨2, some (fun env => env 0 * 2), [], false, 1⟩], []⟩

/-- The state of `pairStore` right after `send 0 7` returned its token
batch `[1]`. -/
def sentPair : Store Int :=
  ⟨[⟨7, none, [1], false, 0⟩, ⟨2, some (fun env => env 0 * 2), [], false, 1⟩], []⟩

/-- The pair scenario with the source suspended. -/
def suspendedPair : Store Int :=
  ⟨[⟨1, none, [1], true, 0⟩, ⟨2, some (fun env => env 0 * 2), [], false, 0⟩], []⟩

/-- The `noGenStore` scenario right after `send 0 5` returned its token
batch `[1]`: the generator-less receiver's dirty counter is 1. -/
def armedNoGen : Store Int :=
  ⟨[⟨5, none, [1], false, 0⟩, ⟨2, none, [], false, 1⟩], []⟩

/-- A cell with its dirty counter zeroed; two stores that agree cell-wise
up to `eraseDirty` differ at most in their counters. -/
def eraseDirty (s : SigState V) : SigState V := { s with dirty := 0 }

/-- The arming phase touches only dirty counters: log and every other
field of every cell are untouched. -/
def sameShape (st st' : Store V) : Prop :=
  st'.log = st.log ∧ ∀ i, (getSig st' i).map eraseDirty = (getSig st i).map eraseDirty

/-- Each cell's dirty counter grows by exactly the number of tokens bound
to it in the produced batch. -/
def shifts (st st' : Store V) (ts : List Nat) : Prop :=
  ∀ i, dirtyOf st' i = dirtyOf st i + ts.count i

/-! Helper lemmas about the store primitives. -/

lemma value_eraseDirty (s : SigState V) : (eraseDirty s).value = s.value := rfl

lemma receivers_eraseDirty (s : SigState V) : (eraseDirty s).receivers = s.receivers := rfl

lemma gen_eraseDirty (s : SigState V) : (eraseDirty s).gen = s.gen := rfl

lemma dirtyOf_def (st : Store V) (i : Nat) :
    dirtyOf st i = ((getSig st i).map SigState.dirty).getD 0 := rfl

lemma log_setSig (st : Store V) (i : Nat) (s : SigState V) :
    (setSig st i s).log = st.log := rfl

lemma getSig_setSig_self {st : Store V} {i : Nat} {s s' : SigState V}
    (h : getSig st i = some s) : getSig (setSig st i s') i = some s' := by
  simp only [getSig, setSig] at h ⊢
  rw [List.get?_set_eq]
  rw [h]
  rfl

lemma getSig_setSig_ne {st : Store V} {i j : Nat} {s' : SigState V} (h : i ≠ j) :
    getSig (setSig st i s') j = getSig st j := by
  simp only [getSig, setSig]
  exact List.get?_set_ne _ _ h

lemma sameShape_refl (st : Store V) : sameShape st st := ⟨rfl, fun _ => rfl⟩

lemma sameShape_trans {a b c : Store V} (h1 : sameShape a b) (h2 : sameShape b c) :
    sameShape a c :=
  ⟨h2.1.trans h1.1, fun i => (h2.2 i).trans (h1.2 i)⟩

lemma shifts_nil (st : Store V) : shifts st st [] := by
  intro i
  simp [List.count_nil]

lemma shifts_trans {a b c : Store V} {ts1 ts2 : List Nat}
    (h1 : shifts a b ts1) (h2 : shifts b c ts2) : shifts a c (ts1 ++ ts2) := by
  intro i
  rw [h2 i, h1 i, List.count_append]
  omega

lemma sameShape_proj {α : Type} {st st' : Store V} (h : sameShape st st')
    (φ : SigState V → α) (hφ : ∀ s, φ (eraseDirty s) = φ s) (i : Nat) :
    (getSig st' i).map φ = (getSig st i).map φ := by
  have h2 := congrArg (Option.map φ) (h.2 i)
  rw [Option.map_map, Option.map_map] at h2
  rwa [show φ ∘ eraseDirty = φ from funext hφ] at h2

lemma sameShape_env [Inhabited V] {st st' : Store V} (h : sameShape st st') :
    envOf st' = envOf st := by
  funext i
  have h2 := sameShape_proj h SigState.value value_eraseDirty i
  simp only [envOf]
  rw [show ∀ t : Store V, t.sigs.get? i = getSig t i from fun _ => rfl,
    show ∀ t : Store V, t.sigs.get? i = getSig t i from fun _ => rfl] at *
  rw [h2]

lemma increase_dirty_arm {st st' : Store V} {r : Nat} (h : increase_dirty st r = some st') :
    sameShape st st' ∧ shifts st st' [r] ∧ ∃ s, getSig st r = some s := by
  rcases Option.map_eq_some'.1 h with ⟨s, hs, hst⟩
  subst hst
  refine ⟨⟨rfl, ?_⟩, ?_, ⟨s, hs⟩⟩
  · intro i
    by_cases hir : r = i
    · subst hir
      rw [getSig_setSig_self hs, hs]
      rfl
    · rw [getSig_setSig_ne hir]
  · intro i
    by_cases hir : i = r
    · subst hir
      rw [dirtyOf_def, dirtyOf_def, getSig_setSig_self hs, hs]
      simp [List.count_cons]
    · rw [dirtyOf_def, dirtyOf_def, getSig_setSig_ne (fun hri => hir hri.symm)]
      simp [List.count_cons, List.count_nil, hir]

lemma decrease_dirty_spec {st st' : Store V} {r : Nat} (h : decrease_dirty st r = some st') :
    ∃ s, getSig st r = some s ∧ s.dirty ≠ 0
      ∧ st' = setSig st r { s with dirty := s.dirty - 1 }
      ∧ st'.log = st.log ∧ dirtyOf st r = s.dirty ∧ dirtyOf st' r = s.dirty - 1 := by
  simp only [decrease_dirty] at h
  cases hs : getSig st r with
  | none => rw [hs] at h; simp at h
  | some s =>
    rw [hs] at h
    simp only [Option.bind_eq_bind, Option.some_bind] at h
    by_cases hd : s.dirty = 0
    · rw [if_pos hd] at h
      simp at h
    · rw [if_neg hd] at h
      have hst : st' = setSig st r { s with dirty := s.dirty - 1 } :=
        (Option.some.inj h).symm
      refine ⟨s, rfl, hd, hst, ?_, ?_, ?_⟩
      · rw [hst]; rfl
      · rw [dirtyOf_def, hs]; rfl
      · rw [hst, dirtyOf_def, getSig_setSig_self hs]; rfl

lemma arm_all [Inhabited V] : ∀ fuel : Nat,
    (∀ (st st' : Store V) (r : Nat) (ts : List Nat),
      promise fuel st r = some (st', ts) → sameShape st st' ∧ shifts st st' ts)
    ∧ (∀ (st st' : Store V) (r : Nat) (ts : List Nat),
      receiver_promise fuel st r = some (st', ts) → sameShape st st' ∧ shifts st st' ts)
    ∧ (∀ (st st' : Store V) (rs ts : List Nat),
      promiseList fuel st rs = some (st', ts) → sameShape st st' ∧ shifts st st' ts) := by
  intro fuel
  induction fuel with
  | zero =>
    refine ⟨?_, ?_, ?_⟩ <;> intro st st' a ts h <;>
      simp [promise, receiver_promise, promiseList] at h
  | succ n ih =>
    obtain ⟨ihp, ihr, ihl⟩ := ih
    refine ⟨?_, ?_, ?_⟩
    · intro st st' r ts h
      simp only [promise] at h
      cases h1 : increase_dirty st r with
      | none => rw [h1] at h; simp at h
      | some st1 =>
        rw [h1] at h
        simp only [Option.bind_eq_bind, Option.some_bind] at h
        cases h2 : receiver_promise n st1 r with
        | none => rw [h2] at h; simp at h
        | some p =>
          obtain ⟨st2, ts2⟩ := p
          rw [h2] at h
          simp only [Option.bind_eq_bind, Option.some_bind, Option.some.injEq,
            Prod.mk.injEq] at h
          obtain ⟨hst, hts⟩ := h
          obtain ⟨ha1, ha2, -⟩ := increase_dirty_arm h1
          obtain ⟨hb1, hb2⟩ := ihr st1 st2 r ts2 h2
          subst hst hts
          exact ⟨sameShape_trans ha1 hb1,
            by simpa using shifts_trans ha2 hb2⟩
    · intro st st' r ts h
      simp only [receiver_promise] at h
      cases h1 : getSig st r with
      | none => rw [h1] at h; simp at h
      | some s =>
        rw [h1] at h
        simp only [Option.bind_eq_bind, Option.some_bind] at h
        exact ihl st st' s.receivers ts h
    · intro st st' rs ts h
      cases rs with
      | nil =>
        simp only [promiseList, Option.some.injEq, Prod.mk.injEq] at h
        obtain ⟨hst, hts⟩ := h
        subst hst hts
        exact ⟨sameShape_refl st, shifts_nil st⟩
      | cons r rs =>
        simp only [promiseList] at h
        cases h1 : promise n st r with
        | none => rw [h1] at h; simp at h
        | some p =>
          obtain ⟨st1, ts1⟩ := p
          rw [h1] at h
          simp only [Option.bind_eq_bind, Option.some_bind] at h
          cases h2 : promiseList n st1 rs with
          | none => rw [h2] at h; simp at h
          | some q =>
            obtain ⟨st2, ts2⟩ := q
            rw [h2] at h
            simp only [Option.bind_eq_bind, Option.some_bind, Option.some.injEq,
              Prod.mk.injEq] at h
            obtain ⟨hst, hts⟩ := h
            subst hst hts
            obtain ⟨ha1, ha2⟩ := ihp st st1 r ts1 h1
            obtain ⟨hb1, hb2⟩ := ihl st1 st2 rs ts2 h2
            exact ⟨sameShape_trans ha1 hb1, shifts_trans ha2 hb2⟩

lemma send_arm [Inhabited V] {fuel : Nat} {st st' : Store V} {s : Nat} {v : V}
    {ts : List Nat} (h : send fuel st s v = some (st', ts)) :
    ∃ sg, getSig st s = some sg
      ∧ sameShape (setSig st s { sg with value := v }) st'
      ∧ shifts (setSig st s { sg with value := v }) st' ts := by
  cases fuel with
  | zero => simp [send] at h
  | succ n =>
    simp only [send] at h
    cases h1 : getSig st s with
    | none => rw [h1] at h; simp at h
    | some sg =>
      rw [h1] at h
      simp only [Option.bind_eq_bind, Option.some_bind] at h
      by_cases hsus : sg.suspended
      · rw [if_pos hsus] at h
        simp only [Option.some.injEq, Prod.mk.injEq] at h
        obtain ⟨hst, hts⟩ := h
        subst hst hts
        exact ⟨sg, rfl, sameShape_refl _, shifts_nil _⟩
      · rw [if_neg hsus] at h
        exact ⟨sg, rfl, ((arm_all (n)).2.2) _ _ _ _ h⟩

lemma send_log [Inhabited V] {fuel : Nat} {st st' : Store V} {s : Nat} {v : V}
    {ts : List Nat} (h : send fuel st s v = some (st', ts)) : st'.log = st.log := by
  obtain ⟨sg, -, hsh, -⟩ := send_arm h
  exact hsh.1.trans (log_setSig ..)

lemma react_spec [Inhabited V] {fuel : Nat} {st st2 : Store V} {i : Nat}
    {ts : List Nat} (h : react fuel st i = some (st2, ts)) :
    ∃ s f, getSig st i = some s ∧ s.gen = some f
      ∧ st2.log = st.log ++ [(i, f (envOf st))] := by
  cases fuel with
  | zero => simp [react] at h
  | succ n =>
    simp only [react] at h
    cases h1 : getSig st i with
    | none => rw [h1] at h; simp at h
    | some s =>
      rw [h1] at h
      simp only [Option.bind_eq_bind, Option.some_bind] at h
      cases h2 : s.gen with
      | none => rw [h2] at h; simp at h
      | some f =>
        rw [h2] at h
        simp only [Option.bind_eq_bind, Option.some_bind] at h
        exact ⟨s, f, rfl, h2, send_log h⟩

lemma resolve_succ [Inhabited V] (fuel : Nat) (st : Store V) (r : Nat) :
    resolve (fuel+1) st r = (decrease_dirty st r).bind fun st1 =>
      if dirtyOf st1 r = 0 then
        (react fuel st1 r).bind fun p => resolveList fuel p.1 p.2
      else some st1 := by
  simp only [resolve]
  rfl

lemma envOf_def [Inhabited V] (st : Store V) (i : Nat) :
    envOf st i = ((getSig st i).map SigState.value).getD default := rfl

lemma dirtyOf_setSig_value {st : Store V} {s0 : Nat} {sg : SigState V}
    (hs : getSig st s0 = some sg) (v : V) (i : Nat) :
    dirtyOf (setSig st s0 { sg with value := v }) i = dirtyOf st i := by
  by_cases his : s0 = i
  · subst his
    rw [dirtyOf_def, dirtyOf_def, getSig_setSig_self hs, hs]
    rfl
  · rw [dirtyOf_def, dirtyOf_def, getSig_setSig_ne his]

lemma envOf_setSig_value [Inhabited V] {st : Store V} {s0 : Nat} {sg : SigState V}
    (hs : getSig st s0 = some sg) (v : V) :
    envOf (setSig st s0 { sg with value := v }) = Function.update (envOf st) s0 v := by
  funext i
  by_cases his : s0 = i
  · subst his
    rw [envOf_def, getSig_setSig_self hs, Function.update_same]
    rfl
  · rw [envOf_def, getSig_setSig_ne his,
      Function.update_noteq (fun hh => his hh.symm)]
    rfl

/-! Correspondence between the single-owner and the shared variant. -/

lemma toSyncSig_gen (s : Lib.SigState V) : (toSyncSig s).gen = s.processor := rfl

lemma toSyncSig_receivers (s : Lib.SigState V) :
    (toSyncSig s).receivers = s.receivers := rfl

lemma toSyncSig_suspended (s : Lib.SigState V) : (toSyncSig s).suspended = false := rfl

lemma toSync_getSig (st : Lib.Store V) (i : Nat) :
    getSig (toSync st) i = (Lib.getSig st i).map toSyncSig := by
  simp only [getSig, Lib.getSig, toSync]
  exact List.get?_map _ _ _

lemma toSync_setSig (st : Lib.Store V) (i : Nat) (s : Lib.SigState V) :
    setSig (toSync st) i (toSyncSig s) = toSync (Lib.setSig st i s) := by
  simp only [setSig, Lib.setSig, toSync, List.map_set]

lemma toSync_env [Inhabited V] (st : Lib.Store V) : envOf (toSync st) = Lib.envOf st := by
  funext i
  simp only [envOf, Lib.envOf, toSync]
  rw [List.get?_map]
  cases st.sigs.get? i <;> rfl

lemma toSync_dirtyOf (st : Lib.Store V) (i : Nat) :
    dirtyOf (toSync st) i = Lib.dirtyOf st i := by
  simp only [dirtyOf, Lib.dirtyOf, toSync]
  rw [List.get?_map]
  cases st.sigs.get? i <;> rfl

lemma toSync_increase (st : Lib.Store V) (i : Nat) :
    increase_dirty (toSync st) i = (Lib.increase_dirty st i).map toSync := by
  simp only [increase_dirty, Lib.increase_dirty, toSync_getSig]
  cases h1 : Lib.getSig st i with
  | none => rfl
  | some s =>
    show some (setSig (toSync st) i (toSyncSig { s with dirty := s.dirty + 1 }))
      = some (toSync (Lib.setSig st i { s with dirty := s.dirty + 1 }))
    rw [toSync_setSig]

lemma toSync_decrease (st : Lib.Store V) (i : Nat) :
    decrease_dirty (toSync st) i = (Lib.decrease_dirty st i).map toSync := by
  simp only [decrease_dirty, Lib.decrease_dirty, toSync_getSig]
  cases h1 : Lib.getSig st i with
  | none => rfl
  | some s =>
    show (if s.dirty = 0 then none
        else some (setSig (toSync st) i (toSyncSig { s with dirty := s.dirty - 1 })))
      = Option.map toSync (if s.dirty = 0 then none
        else some (Lib.setSig st i { s with dirty := s.dirty - 1 }))
    by_cases hd : s.dirty = 0
    · rw [if_pos hd, if_pos hd]
      rfl
    · rw [if_neg hd, if_neg hd, toSync_setSig]
      rfl

lemma toSync_arm [Inhabited V] : ∀ fuel : Nat,
    (∀ (st : Lib.Store V) (r : Nat),
      (Lib.promise fuel st r).map (fun p => (toSync p.1, p.2)) = promise fuel (toSync st) r)
    ∧ (∀ (st : Lib.Store V) (r : Nat),
      (Lib.receiver_promise fuel st r).map (fun p => (toSync p.1, p.2))
        = receiver_promise fuel (toSync st) r)
    ∧ (∀ (st : Lib.Store V) (rs : List Nat),
      (Lib.promiseList fuel st rs).map (fun p => (toSync p.1, p.2))
        = promiseList fuel (toSync st) rs) := by
  intro fuel
  induction fuel with
  | zero => exact ⟨fun _ _ => rfl, fun _ _ => rfl, fun _ _ => rfl⟩
  | succ n ih =>
    obtain ⟨ihp, ihr, ihl⟩ := ih
    refine ⟨?_, ?_, ?_⟩
    · intro st r
      simp only [Lib.promise, promise]
      rw [toSync_increase]
      cases h1 : Lib.increase_dirty st r with
      | none => rfl
      | some st1 =>
        simp only [Option.bind_eq_bind, Option.some_bind, Option.map_some']
        rw [← ihr st1 r]
        cases h2 : Lib.receiver_promise n st1 r with
        | none => rfl
        | some p => rfl
    · intro st r
      simp only [Lib.receiver_promise, receiver_promise]
      rw [toSync_getSig]
      cases h1 : Lib.getSig st r with
      | none => rfl
      | some s => exact ihl st s.receivers
    · intro st rs
      cases rs with
      | nil => rfl
      | cons r rs =>
        simp only [Lib.promiseList, promiseList]
        rw [← ihp st r]
        cases h1 : Lib.promise n st r with
        | none => rfl
        | some p =>
          simp only [Option.bind_eq_bind, Option.some_bind, Option.map_some']
          rw [← ihl p.1 rs]
          cases h2 : Lib.promiseList n p.1 rs with
          | none => rfl
          | some q => rfl

lemma toSync_send [Inhabited V] (fuel : Nat) (st : Lib.Store V) (s : Nat) (v : V) :
    (Lib.send fuel st s v).map (fun p => (toSync p.1, p.2)) = send fuel (toSync st) s v := by
  cases fuel with
  | zero => rfl
  | succ n =>
    simp only [Lib.send, send]
    rw [toSync_getSig]
    cases h1 : Lib.getSig st s with
    | none => rfl
    | some sg =>
      show (Lib.promiseList n (Lib.setSig st s { sg with value := v }) sg.receivers).map _
        = promiseList n (setSig (toSync st) s (toSyncSig { sg with value := v }))
            sg.receivers
      rw [toSync_setSig]
      exact (toSync_arm n).2.2 _ sg.receivers

lemma toSync_react [Inhabited V] (fuel : Nat) (st : Lib.Store V) (i : Nat) :
    (Lib.react fuel st i).map (fun p => (toSync p.1, p.2)) = react fuel (toSync st) i := by
  cases fuel with
  | zero => rfl
  | succ n =>
    simp only [Lib.react, react, toSync_env, toSync_getSig]
    cases h1 : Lib.getSig st i with
    | none => rfl
    | some s =>
      simp only [Option.bind_eq_bind, Option.some_bind, Option.map_some', toSyncSig_gen]
      cases h2 : s.processor with
      | none => rfl
      | some f =>
        simp only [Option.bind_eq_bind, Option.some_bind]
        exact toSync_send n _ i _

lemma toSync_resolve_all [Inhabited V] : ∀ fuel : Nat,
    (∀ (st : Lib.Store V) (r : Nat),
      (Lib.resolve fuel st r).map toSync = resolve fuel (toSync st) r)
    ∧ (∀ (st : Lib.Store V) (ts : List Nat),
      (Lib.resolveList fuel st ts).map toSync = resolveList fuel (toSync st) ts) := by
  intro fuel
  induction fuel with
  | zero => exact ⟨fun _ _ => rfl, fun _ _ => rfl⟩
  | succ n ih =>
    obtain ⟨ihr, ihl⟩ := ih
    refine ⟨?_, ?_⟩
    · intro st r
      simp only [Lib.resolve, resolve]
      rw [toSync_decrease]
      cases h1 : Lib.decrease_dirty st r with
      | none => rfl
      | some st1 =>
        simp only [Option.bind_eq_bind, Option.some_bind, Option.map_some']
        rw [toSync_dirtyOf]
        by_cases hd : Lib.dirtyOf st1 r = 0
        · rw [if_pos hd, if_pos hd]
          rw [← toSync_react]
          cases h2 : Lib.react n st1 r with
          | none => rfl
          | some p =>
            simp only [Option.bind_eq_bind, Option.some_bind, Option.map_some']
            exact ihl p.1 p.2
        · rw [if_neg hd, if_neg hd]
          rfl
    · intro st ts
      cases ts with
      | nil => rfl
      | cons t ts =>
        simp only [Lib.resolveList, resolveList]
        rw [← ihr st t]
        cases h1 : Lib.resolve n st t with
        | none => rfl
        | some st1 =>
          simp only [Option.bind_eq_bind, Option.some_bind, Option.map_some']
          exact ihl st1 ts

/-! The claims. -/

/-- C1: the claim says releasing a token — explicitly via `resolve()` or
implicitly on scope exit — decrements the bound receiver's dirty counter
exactly once in total, and that an explicitly resolved token is not
decremented again when dropped.  The code has no already-resolved guard:
`UpdatePromise::resolve` (src/src/sync.rs:55-60) decrements
unconditionally and `Drop` (src/src/sync.rs:63-67) calls `resolve` again,
so the counter is decremented twice.  Concretely, on the armed pair
scenario the first release correctly drives the counter 1 → 0 and
recomputes the receiver, and the second, drop-triggered release then
underflows the `usize` counter (evaluates to `none`, the modelled panic) —
the decrement is applied a second time rather than exactly once. -/
theorem c1_explicit_resolve_then_drop_double_decrements :
    ((send 10 pairStore 0 5).bind fun p => resolve 10 p.1 1).map
        (fun s2 => (dirtyOf s2 1, envOf s2 1, s2.log)) = some (0, 10, [(1, 10)])
    ∧ ((send 10 pairStore 0 5).bind fun p =>
        (resolve 10 p.1 1).bind fun s2 => resolve 10 s2 1).isSome = false := by
  constructor
  · decide
  · decide

/-- C2: diamond glitch-freedom — for independent `A`, derived `B = f(A)`
and `C = g(A)` registered as receivers of `A`, and derived `D = h(B, C)`
registered as a receiver of both, one `A.send(x)` followed by releasing
the returned token batch recomputes `D` exactly once (one effect event for
`D` on the log) and leaves `D.get() = h (f x) (g x)`, computed from the
already-updated `B` and `C`. -/
theorem c2_diamond_glitch_free (f g : Int → Int) (h : Int → Int → Int) (x : Int) :
    (diamondRun f g h x).map
      (fun st => (envOf st 3, (st.log.filter (fun e => e.1 = 3)).length))
      = some (h (f x) (g x), 1) := by
  simp [diamondRun, diamondStore, send, promise, receiver_promise, promiseList,
    resolve, resolveList, react, increase_dirty, decrease_dirty, getSig, setSig,
    envOf, dirtyOf, emptyStore, SyncSignal.new, SyncSignal.driven, add_receiver]

/-- C3: the dirty-counter invariant — counters are natural numbers and a
successful decrement requires a positive counter (so no state with a
negative counter is ever produced); releasing a token runs `react` exactly
when the decremented counter is 0 and otherwise changes nothing further; a
successful `react` requires an owned generator and appends exactly one
recomputation event; and `send`, `promise`, `new` and `driven` never
recompute (the log is untouched) and seed fresh signals with dirty 0. -/
theorem c3_dirty_invariant {V : Type} [Inhabited V] (fuel : Nat) (st st1 : Store V)
    (r : Nat) (hd : decrease_dirty st r = some st1) :
    1 ≤ dirtyOf st r
    ∧ dirtyOf st1 r = dirtyOf st r - 1
    ∧ (dirtyOf st1 r ≠ 0 → resolve (fuel+1) st r = some st1)
    ∧ (dirtyOf st1 r = 0 →
        resolve (fuel+1) st r = (react fuel st1 r).bind fun p => resolveList fuel p.1 p.2)
    ∧ (∀ st2 ts, react fuel st1 r = some (st2, ts) →
        ∃ s f, getSig st1 r = some s ∧ s.gen = some f
          ∧ st2.log = st1.log ++ [(r, f (envOf st1))])
    ∧ (∀ s v st' ts, send fuel st s v = some (st', ts) → st'.log = st.log)
    ∧ (∀ st' ts, promise fuel st r = some (st', ts) → st'.log = st.log)
    ∧ (∀ v : V, (SyncSignal.new st v).1.log = st.log
        ∧ dirtyOf (SyncSignal.new st v).1 (SyncSignal.new st v).2 = 0)
    ∧ (∀ p : (Nat → V) → V, (SyncSignal.driven st p).1.log = st.log
        ∧ dirtyOf (SyncSignal.driven st p).1 (SyncSignal.driven st p).2 = 0) := by
  obtain ⟨s, hs, hd0, hst1, hlog, hdr, hdr1⟩ := decrease_dirty_spec hd
  refine ⟨?_, ?_, ?_, ?_, ?_, ?_, ?_, ?_, ?_⟩
  · omega
  · omega
  · intro hne
    rw [resolve_succ, hd]
    simp only [Option.bind_eq_bind, Option.some_bind]
    rw [if_neg hne]
  · intro hz
    rw [resolve_succ, hd]
    simp only [Option.bind_eq_bind, Option.some_bind]
    rw [if_pos hz]
  · intro st2 ts h
    exact react_spec h
  · intro s' v st' ts h
    exact send_log h
  · intro st' ts h
    cases fuel with
    | zero => simp [promise] at h
    | succ n =>
      obtain ⟨hsh, -⟩ := (arm_all (n+1)).1 st st' r ts h
      exact hsh.1
  · intro v
    refine ⟨rfl, ?_⟩
    rw [dirtyOf_def]
    show ((getSig _ st.sigs.length).map SigState.dirty).getD 0 = 0
    simp [getSig, SyncSignal.new, List.get?_concat_length]
  · intro p
    refine ⟨rfl, ?_⟩
    rw [dirtyOf_def]
    show ((getSig _ st.sigs.length).map SigState.dirty).getD 0 = 0
    simp [getSig, SyncSignal.driven, List.get?_concat_length]

/-- C3 witness: the invariant instantiated on the armed pair scenario,
whose receiver has dirty counter 1. -/
theorem c3_dirty_invariant_witness : 1 ≤ dirtyOf armedPair 1 :=
  (c3_dirty_invariant 5 armedPair
    (setSig armedPair 1 ⟨2, some (fun env => env 0 * 2), [], false, 0⟩) 1 rfl).1

/-- C4: one `promise()` call on a receiver `r` increments `r`'s dirty
counter by exactly 1 (and no other counter), constructs exactly one token
bound to `r`, recursively requests the downstream tokens via
`receiver_promise`, and returns the batch with `r`'s own token in first
position; when `r` does not reappear downstream (the acyclic case), the
whole call leaves `r`'s counter at exactly one more than before. -/
theorem c4_promise_contract {V : Type} [Inhabited V] (fuel : Nat) (st st' : Store V)
    (r : Nat) (ts : List Nat) (h : promise (fuel+1) st r = some (st', ts)) :
    ∃ st1 rest, increase_dirty st r = some st1
      ∧ dirtyOf st1 r = dirtyOf st r + 1
      ∧ (∀ i, i ≠ r → dirtyOf st1 i = dirtyOf st i)
      ∧ receiver_promise fuel st1 r = some (st', rest)
      ∧ ts = r :: rest
      ∧ dirtyOf st' r = dirtyOf st r + ts.count r
      ∧ (rest.count r = 0 → dirtyOf st' r = dirtyOf st r + 1) := by
  have harm := (arm_all (fuel+1)).1 st st' r ts h
  simp only [promise] at h
  cases h1 : increase_dirty st r with
  | none => rw [h1] at h; simp at h
  | some st1 =>
    rw [h1] at h
    simp only [Option.bind_eq_bind, Option.some_bind] at h
    cases h2 : receiver_promise fuel st1 r with
    | none => rw [h2] at h; simp at h
    | some p =>
      obtain ⟨st2, ts2⟩ := p
      rw [h2] at h
      simp only [Option.bind_eq_bind, Option.some_bind, Option.some.injEq,
        Prod.mk.injEq] at h
      obtain ⟨hst, hts⟩ := h
      subst hst
      obtain ⟨-, ha2, -⟩ := increase_dirty_arm h1
      refine ⟨st1, ts2, rfl, ?_, ?_, h2, hts.symm, harm.2 r, ?_⟩
      · rw [ha2 r]
        simp [List.count_cons]
      · intro i hir
        rw [ha2 i]
        simp [List.count_cons, List.count_nil, Ne.symm hir]
      · intro hrest
        rw [harm.2 r, ← hts]
        simp [List.count_cons, hrest]

/-- C4 witness: the promise contract instantiated on the pair scenario's
receiver, whose token batch is `[1]`. -/
theorem c4_promise_contract_witness :
    ∃ st1 rest, increase_dirty pairStore 1 = some st1
      ∧ dirtyOf st1 1 = dirtyOf pairStore 1 + 1
      ∧ (∀ i, i ≠ 1 → dirtyOf st1 i = dirtyOf pairStore i)
      ∧ receiver_promise 9 st1 1 = some (promisedPair, rest)
      ∧ [1] = 1 :: rest
      ∧ dirtyOf promisedPair 1 = dirtyOf pairStore 1 + ([1] : List Nat).count 1
      ∧ (rest.count 1 = 0 → dirtyOf promisedPair 1 = dirtyOf pairStore 1 + 1) :=
  c4_promise_contract 9 pairStore promisedPair 1 [1] rfl

/-- C5: two-phase arming — a successful `send` call fires no effect and
runs no processor (the log is untouched), changes no value other than the
sender's own (the environment is the sender's point update), and
increments every transitively affected receiver's dirty counter by exactly
the number of tokens bound to it in the returned batch; recomputation can
only happen later, when the returned tokens are released. -/
theorem c5_send_two_phase {V : Type} [Inhabited V] (fuel : Nat) (st st' : Store V)
    (s : Nat) (v : V) (ts : List Nat) (h : send fuel st s v = some (st', ts)) :
    st'.log = st.log
    ∧ (∀ i, dirtyOf st' i = dirtyOf st i + ts.count i)
    ∧ ∃ sg, getSig st s = some sg ∧ envOf st' = Function.update (envOf st) s v := by
  obtain ⟨sg, hs, hsh, hsf⟩ := send_arm h
  refine ⟨hsh.1.trans (log_setSig ..), ?_, sg, hs, ?_⟩
  · intro i
    rw [hsf i, dirtyOf_setSig_value hs v i]
  · rw [sameShape_env hsh, envOf_setSig_value hs v]

/-- C5 witness: the two-phase property instantiated on `send 0 7` over the
pair scenario, whose token batch is `[1]`. -/
theorem c5_send_two_phase_witness :
    sentPair.log = pairStore.log
    ∧ (∀ i, dirtyOf sentPair i = dirtyOf pairStore i + ([1] : List Nat).count i)
    ∧ ∃ sg, getSig pairStore 0 = some sg
        ∧ envOf sentPair = Function.update (envOf pairStore) 0 7 :=
  c5_send_two_phase 10 pairStore sentPair 0 7 [1] rfl

/-- C6: suspension — on a suspended signal, `send v` still overwrites the
stored value (the result state is exactly the old one with the sender's
value replaced, so `get` returns `v`) but returns an empty token batch,
fires no effect, changes no dirty counter and no other cell (hence there
is nothing to replay); after `resume`, the next `send` propagates
normally, fanning out over the same receiver registry. -/
theorem c6_suspension {V : Type} [Inhabited V] (fuel : Nat) (st : Store V) (s : Nat)
    (v w : V) (sg : SigState V) (h1 : getSig st s = some sg)
    (h2 : sg.suspended = true) :
    send (fuel+1) st s v = some (setSig st s { sg with value := v }, [])
    ∧ envOf (setSig st s { sg with value := v }) s = v
    ∧ (setSig st s { sg with value := v }).log = st.log
    ∧ (∀ i, dirtyOf (setSig st s { sg with value := v }) i = dirtyOf st i)
    ∧ (∀ j, j ≠ s → getSig (setSig st s { sg with value := v }) j = getSig st j)
    ∧ send (fuel+1) (resume st s) s w
        = promiseList fuel
            (setSig (resume st s) s { sg with suspended := false, value := w })
            sg.receivers := by
  refine ⟨?_, ?_, log_setSig .., fun i => dirtyOf_setSig_value h1 v i,
    fun j hj => getSig_setSig_ne (fun hh => hj hh.symm), ?_⟩
  · simp only [send]
    rw [h1]
    simp only [Option.bind_eq_bind, Option.some_bind]
    rw [if_pos h2]
  · rw [envOf_def, getSig_setSig_self h1]
    rfl
  · have hres : resume st s = setSig st s { sg with suspended := false } := by
      simp only [resume, h1]
    have h3 : getSig (resume st s) s = some { sg with suspended := false } := by
      rw [hres]; exact getSig_setSig_self h1
    simp only [send]
    rw [h3]
    simp only [Option.bind_eq_bind, Option.some_bind]
    rw [if_neg (by simp)]

/-- C6 witness: suspension instantiated on the suspended pair scenario. -/
theorem c6_suspension_witness :
    send 10 suspendedPair 0 5
      = some (setSig suspendedPair 0 ⟨5, none, [1], true, 0⟩, []) :=
  (c6_suspension 9 suspendedPair 0 5 7 ⟨1, none, [1], true, 0⟩ rfl rfl).1

/-- C7: `driven(processor, effect)` evaluates the processor exactly once
against the current environment to seed the stored value — so `get` on the
new signal returns that single evaluation before any send — installs the
generator, starts with dirty 0, and does not invoke the effect during
construction (the log is untouched). -/
theorem c7_driven_seeds {V : Type} [Inhabited V] (st : Store V)
    (proc : (Nat → V) → V) :
    (SyncSignal.driven st proc).1.log = st.log
    ∧ SyncSignal.get (SyncSignal.driven st proc).1 (SyncSignal.driven st proc).2
        = proc (envOf st)
    ∧ dirtyOf (SyncSignal.driven st proc).1 (SyncSignal.driven st proc).2 = 0
    ∧ (getSig (SyncSignal.driven st proc).1 (SyncSignal.driven st proc).2).map
        SigState.gen = some (some proc) := by
  refine ⟨rfl, ?_, ?_, ?_⟩
  · show envOf _ st.sigs.length = _
    rw [envOf_def]
    show ((getSig _ st.sigs.length).map SigState.value).getD default = _
    simp [getSig, SyncSignal.driven, List.get?_concat_length]
  · rw [dirtyOf_def]
    show ((getSig _ st.sigs.length).map SigState.dirty).getD 0 = 0
    simp [getSig, SyncSignal.driven, List.get?_concat_length]
  · show (getSig _ st.sigs.length).map SigState.gen = _
    simp [getSig, SyncSignal.driven, List.get?_concat_length]

/-- C8 counterexample: the claim asserts that both variants implement the
identical contract including the suspend/resume gate and produce the same
observable results for the same call sequence.  The single-owner `Signal`
struct (src/src/lib.rs:40-52) has no suspension field and
`SealedSignalTrait::init` takes no suspension argument, so `suspend` has
no state to record in that variant.  On the identical sequence
`new 1; driven (·*2); add_receiver; suspend; send 5; release batch`, the
single-owner variant recomputes the receiver (value 10, one effect event)
while the shared variant gates the fan-out (value stays 2, no effect
event): the two variants produce different observable results. -/
theorem c8_single_owner_lacks_suspension :
    ((Lib.send 10 (Lib.suspend libPairStore 0) 0 5).bind fun p =>
        Lib.resolveList 10 p.1 p.2).map (fun s2 => (Lib.envOf s2 1, s2.log.length))
      = some (10, 1)
    ∧ ((send 10 (suspend pairStore 0) 0 5).bind fun p =>
        resolveList 10 p.1 p.2).map (fun s2 => (envOf s2 1, s2.log.length))
      = some (2, 0)
    ∧ (some ((10 : Int), 1) : Option (Int × Nat)) ≠ some ((2 : Int), 0) := by
  refine ⟨?_, ?_, ?_⟩
  · decide
  · decide
  · decide

/-- C8 amended: both variants implement `new`, `driven`, `get`, `send`,
`add_receiver` and the identical dirty-counting propagation protocol,
producing the same observable results for the same sequence of those
calls — under `toSync`, every operation of the single-owner variant
commutes with the corresponding operation of the shared variant — but the
suspend/resume gate exists only in the shared variant: the single-owner
`Signal` struct has no suspension state, so its `send` always fans out. -/
theorem c8_variants_agree {V : Type} [Inhabited V] :
    (∀ (st : Lib.Store V) (v : V),
        toSync (Lib.Signal.new st v).1 = (SyncSignal.new (toSync st) v).1
        ∧ (Lib.Signal.new st v).2 = (SyncSignal.new (toSync st) v).2)
    ∧ (∀ (st : Lib.Store V) (p : (Nat → V) → V),
        toSync (Lib.Signal.driven st p).1 = (SyncSignal.driven (toSync st) p).1
        ∧ (Lib.Signal.driven st p).2 = (SyncSignal.driven (toSync st) p).2)
    ∧ (∀ (st : Lib.Store V) (i : Nat), Lib.Signal.get st i = SyncSignal.get (toSync st) i)
    ∧ (∀ (st : Lib.Store V) (a b : Nat),
        toSync (Lib.add_receiver st a b) = add_receiver (toSync st) a b)
    ∧ (∀ (fuel : Nat) (st : Lib.Store V) (s : Nat) (v : V),
        (Lib.send fuel st s v).map (fun p => (toSync p.1, p.2))
          = send fuel (toSync st) s v)
    ∧ (∀ (fuel : Nat) (st : Lib.Store V) (r : Nat),
        (Lib.resolve fuel st r).map toSync = resolve fuel (toSync st) r)
    ∧ (∀ (fuel : Nat) (st : Lib.Store V) (ts : List Nat),
        (Lib.resolveList fuel st ts).map toSync = resolveList fuel (toSync st) ts) := by
  refine ⟨?_, ?_, ?_, ?_,
    fun fuel st s v => toSync_send fuel st s v,
    fun fuel st r => (toSync_resolve_all fuel).1 st r,
    fun fuel st ts => (toSync_resolve_all fuel).2 st ts⟩
  · intro st v
    refine ⟨?_, ?_⟩
    · simp [toSync, Lib.Signal.new, SyncSignal.new]
      rfl
    · simp [Lib.Signal.new, SyncSignal.new, toSync]
  · intro st p
    refine ⟨?_, ?_⟩
    · simp [toSync, Lib.Signal.driven, SyncSignal.driven, toSync_env]
      rw [show envOf ⟨st.sigs.map toSyncSig, st.log⟩ = Lib.envOf st from toSync_env st]
      rfl
    · simp [Lib.Signal.driven, SyncSignal.driven, toSync]
  · intro st i
    show Lib.envOf st i = envOf (toSync st) i
    rw [toSync_env]
  · intro st a b
    simp only [Lib.add_receiver, add_receiver, toSync_getSig]
    cases h1 : Lib.getSig st a with
    | none => rfl
    | some s =>
      simp only [Option.map_some', toSyncSig_receivers]
      exact (toSync_setSig st a { s with receivers := s.receivers ++ [b] }).symm

/-- C9: releasing the token that drives a generator-less receiver's dirty
counter to 0 panics — `react` unwraps the absent generator
(src/src/sync.rs:214) — rather than silently skipping recomputation; in
the model the release evaluates to `none`. -/
theorem c9_new_receiver_release_panics {V : Type} [Inhabited V] (fuel : Nat)
    (st st1 : Store V) (r : Nat) (sg : SigState V)
    (h1 : decrease_dirty st r = some st1) (h2 : getSig st1 r = some sg)
    (h3 : sg.gen = none) (h4 : sg.dirty = 0) :
    resolve (fuel+1) st r = none := by
  rw [resolve_succ, h1]
  simp only [Option.bind_eq_bind, Option.some_bind]
  rw [if_pos (by rw [dirtyOf_def, h2]; simpa using h4)]
  cases fuel with
  | zero => simp [react]
  | succ n => simp [react, h2, h3]

/-- C9 witness: releasing the sole token of the armed generator-less
scenario evaluates to `none` (the unwrap panic). -/
theorem c9_new_receiver_release_panics_witness : resolve 6 armedNoGen 1 = none :=
  c9_new_receiver_release_panics 5 armedNoGen
    (setSig armedNoGen 1 ⟨2, none, [], false, 0⟩) 1 ⟨2, none, [], false, 0⟩
    rfl rfl rfl rfl

/-- C10: when releasing a token drives its receiver's counter to 0, the
token batch produced by the triggered recomputation's internal send is
consumed by the release itself — passed to the recursive batch release,
never returned to the holder — before the original release returns.  On
the chain `x → y → z`, releasing only `y`'s token recomputes `y`, arms `z`
a second time and immediately releases that inner token again (z's counter
reads 1, not 2, afterwards), and releasing the whole batch then recomputes
`z` from the updated `y`. -/
theorem c10_inner_tokens_released {V : Type} [Inhabited V] (fuel : Nat)
    (st st1 : Store V) (r : Nat) (h1 : decrease_dirty st r = some st1)
    (h2 : dirtyOf st1 r = 0) :
    resolve (fuel+1) st r = (react fuel st1 r).bind (fun p => resolveList fuel p.1 p.2)
    ∧ (∀ (f g : Int → Int) (x : Int),
        ((send 20 (chainStore f g) 0 x).bind fun p => resolve 20 p.1 1).map
          (fun s2 => (s2.log, dirtyOf s2 1, dirtyOf s2 2, envOf s2 1))
          = some ([(1, f x)], 0, 1, f x))
    ∧ (∀ (f g : Int → Int) (x : Int),
        ((send 20 (chainStore f g) 0 x).bind fun p => resolveList 20 p.1 p.2).map
          (fun s2 => (envOf s2 2, s2.log))
          = some (g (f x), [(1, f x), (2, g (f x))])) := by
  refine ⟨?_, ?_, ?_⟩
  · rw [resolve_succ, h1]
    simp only [Option.bind_eq_bind, Option.some_bind]
    rw [if_pos h2]
  · intro f g x
    simp [chainStore, send, promise, receiver_promise, promiseList, resolve,
      resolveList, react, increase_dirty, decrease_dirty, getSig, setSig, envOf,
      dirtyOf, emptyStore, SyncSignal.new, SyncSignal.driven, add_receiver]
  · intro f g x
    simp [chainStore, send, promise, receiver_promise, promiseList, resolve,
      resolveList, react, increase_dirty, decrease_dirty, getSig, setSig, envOf,
      dirtyOf, emptyStore, SyncSignal.new, SyncSignal.driven, add_receiver]

/-- C10 witness: the release of the armed pair's sole token routes the
recomputation's inner token batch into the recursive batch release. -/
theorem c10_inner_tokens_released_witness :
    resolve 10 armedPair 1
      = (react 9 (setSig armedPair 1 ⟨2, some (fun env => env 0 * 2), [], false, 0⟩) 1).bind
          (fun p => resolveList 9 p.1 p.2) :=
  (c10_inner_tokens_released 9 armedPair
    (setSig armedPair 1 ⟨2, some (fun env => env 0 * 2), [], false, 0⟩) 1 rfl rfl).1

end Reactivity
